import Mathlib

/-!
Verification of the match-session client of the llm-ddz repository
(`static/js/game.js`, the `Game` and `Observer` classes) against its
natural-language specification.

The JavaScript source is shallowly embedded: each handler of the `Game`
class becomes a Lean function on an explicit `Game` record; JS `undefined`
is modelled by `Option`; handlers that would throw a `TypeError`
(indexing `players[-1]` and calling a method on the result) return `none`.
Code of the repository that is not part of the client sources
(`player.mjs`, `rule.mjs`, and the authoritative Python server) is modelled
from the specification; every such definition carries a doc comment
starting with `Modelled from the spec:`.
-/

namespace DDZ

/-- A player object as the game code uses it (`player.mjs` instance):
identity fields set by `updateInfo`, the held cards `pokerInHand`
(entries are card ids; `none` models a JS `undefined` entry), and the
landlord flag set by `setLandlord`. -/
structure PlayerSt where
  uid : Nat
  name : String
  pokerInHand : List (Option Nat)
  isLandlord : Bool
deriving DecidableEq

/-- The three-element `this.players` array of the `Game` class. -/
structure Players where
  p0 : PlayerSt
  p1 : PlayerSt
  p2 : PlayerSt
deriving DecidableEq

/-- JS array indexing `players[i]`: `undefined` (`none`) outside 0..2. -/
def Players.getI (ps : Players) (i : Int) : Option PlayerSt :=
  if i = 0 then some ps.p0
  else if i = 1 then some ps.p1
  else if i = 2 then some ps.p2
  else none

/-- Replacing the player object at index `i` (no effect outside 0..2). -/
def Players.setI (ps : Players) (i : Int) (p : PlayerSt) : Players :=
  if i = 0 then { ps with p0 := p }
  else if i = 1 then { ps with p1 := p }
  else if i = 2 then { ps with p2 := p }
  else ps

/-- The mutable state of the `Game` class that the session claims are
about: the players array, the table cards (`tablePoker`), the owner of
the last non-empty play (`lastShotPlayer`, stored as the seat of the
player object the JS field references), the current turn (`whoseTurn`,
an `Int` because `uidToSeat` can produce `-1`), and the room multiplier
mirrored from `observer.state.room.multiple`. -/
structure Game where
  players : Players
  tablePoker : List Nat
  lastShotPlayer : Option Int
  whoseTurn : Int
  multiple : Nat
deriving DecidableEq

/-- Embeds `Game.uidToSeat`: first seat whose player has the given uid, else `-1`. -/
def uidToSeat (g : Game) (uid : Nat) : Int :=
  if (g.players.p0).uid = uid then 0
  else if (g.players.p1).uid = uid then 1
  else if (g.players.p2).uid = uid then 2
  else -1

/-- Modelled from the spec: `Player.updateInfo` (`player.mjs`, absent from
src) stores the identity (id, display name) on the player object. -/
def updateInfo (p : PlayerSt) (uid : Nat) (name : String) : PlayerSt :=
  { p with uid := uid, name := name }

/-- Modelled from the spec: `Player.removeAPoker` (`player.mjs`, absent
from src) performs the own-play removal of one held entry for the played
card — the card id itself when the hand holds it, otherwise one face-down
placeholder (id 55) as held by a peer hand. -/
def removeAPoker (hand : List (Option Nat)) (id : Nat) : List (Option Nat) :=
  if (some id) ∈ hand then hand.erase (some id)
  else if (some 55) ∈ hand then hand.erase (some 55)
  else hand

/-- Insertion step for the id-ordered sort of a played card list. -/
def insertSorted (c : Nat) : List Nat → List Nat
  | [] => [c]
  | x :: xs => if c ≤ x then c :: x :: xs else x :: insertSorted c xs

/-- Modelled from the spec: `Poker.comparePoker` (`rule.mjs`, absent from
src) orders a played card list before display; modelled as ascending id
order. Claims about plays are stated order-insensitively (as multisets)
wherever this ordering matters. -/
def sortPokers (l : List Nat) : List Nat := l.foldr insertSorted []

/-- Insertion step for the hand sort, ordering entries by card id with
`undefined` entries treated as id 0. -/
def insertSortedO (c : Option Nat) : List (Option Nat) → List (Option Nat)
  | [] => [c]
  | x :: xs => if c.getD 0 ≤ x.getD 0 then c :: x :: xs else x :: insertSortedO c xs

/-- Modelled from the spec: `Player.sortPoker` (`player.mjs`, absent from
src) re-sorts the hand after the bottom cards are merged in; modelled as
an ascending id sort. The bottom-card claim is stated as a multiset
equation, insensitive to the chosen order. -/
def sortHand (l : List (Option Nat)) : List (Option Nat) := l.foldr insertSortedO []

/-- Embeds `Game.handleShotPoker` (game.js lines 474-515): adopt the acting seat
from the packet uid, apply the play (a pass leaves the table untouched,
a non-empty play removes the cards from the acting hand and replaces the
trick), then advance the turn only when the acting hand is still
non-empty. An unknown uid makes the JS handler dereference
`players[-1]` and throw, modelled as `none`. -/
def handleShotPoker (g : Game) (uid : Nat) (pokers : List Nat) : Option Game :=
  match Players.getI g.players (uidToSeat g uid) with
  | none => none
  | some tp =>
    let w := uidToSeat g uid
    let g1 : Game :=
      if pokers.isEmpty then { g with whoseTurn := w }
      else
        { g with
          whoseTurn := w
          players := Players.setI g.players w
            { tp with pokerInHand := (sortPokers pokers).foldl removeAPoker tp.pokerInHand }
          tablePoker := sortPokers pokers
          lastShotPlayer := some w }
    match Players.getI g1.players w with
    | none => none
    | some tp1 =>
      if 0 < tp1.pokerInHand.length then some { g1 with whoseTurn := (g1.whoseTurn + 1) % 3 }
      else some g1

/-- The round phase of a match. The client itself stores no phase field;
this type carries the spec-level phase alongside the embedded state. -/
inductive Phase where
  | playing : Phase
  | roundOver : Int → Phase
deriving DecidableEq

/-- Modelled from the spec: the authoritative round-over transition lives
in the Python server (absent from src) and fires when the acting hand
empties, naming the acting seat the winner; the client mirrors it via the
game-over message. `playStep` pairs the embedded `handleShotPoker` with
that phase transition. -/
def playStep (g : Game) (ph : Phase) (uid : Nat) (pokers : List Nat) :
    Option (Game × Phase) :=
  match handleShotPoker g uid pokers with
  | none => none
  | some g1 =>
    match Players.getI g1.players (uidToSeat g uid) with
    | none => none
    | some tp1 =>
      some (g1, if tp1.pokerInHand = [] then Phase.roundOver (uidToSeat g uid) else ph)

/-- Models one JS array element assignment `arr[i] = v`: overwrite in
place when the index exists, append when it is the next index past the
end. The embedded handler writes indices 0, 1, 2 in order, so the index
never skips past the end and no holes arise. -/
def setElem (l : List Nat) (i : Nat) (v : Nat) : List Nat :=
  if i < l.length then l.set i v else l ++ [v]

/-- Embeds the `RSP_CALL_SCORE` case of `Game.onmessage` (game.js lines 216-256): adopt
the bidder's seat; with no landlord (`landlord = -1`) advance the turn and
stay in bidding; otherwise move the turn to the landlord's seat, write the
3 bottom cards element-wise into `tablePoker[0]`, `[1]`, `[2]` (any
entries of a longer prior table beyond index 2 are preserved) and set the
landlord flag (a 3-card check guards that branch). The packet multiplier
is stored last. Unknown uids make the JS handler throw
(`players[-1].say` / `.setLandlord`): `none`. -/
def rspCallScore (g : Game) (uid : Nat) (landlord : Int) (pokers : List Nat)
    (multiple : Nat) : Option Game :=
  match Players.getI g.players (uidToSeat g uid) with
  | none => none
  | some _ =>
    let w := uidToSeat g uid
    if landlord = -1 then
      some { g with whoseTurn := (w + 1) % 3, multiple := multiple }
    else
      let w2 := uidToSeat g landlord.toNat
      if pokers.length = 3 then
        match Players.getI g.players w2 with
        | none => none
        | some lp =>
          some { g with
            whoseTurn := w2
            tablePoker :=
              setElem (setElem (setElem g.tablePoker 0 (pokers.getD 0 0))
                1 (pokers.getD 1 0)) 2 (pokers.getD 2 0)
            players := Players.setI g.players w2 { lp with isLandlord := true }
            multiple := multiple }
      else
        some { g with whoseTurn := w2, multiple := multiple }

/-- Embeds `Game.dealLastThreePoker` (game.js lines 407-472): guarded by a valid
`whoseTurn` and a 3-card table, push the 3 bottom cards into the
landlord's hand, re-sort it, clear the table and make the landlord the
last-shot player. The guards return the state unchanged, as the JS early
returns do. -/
def dealLastThreePoker (g : Game) : Game :=
  match Players.getI g.players g.whoseTurn with
  | none => g
  | some tp =>
    if g.tablePoker.length = 3 then
      { g with
        players := Players.setI g.players g.whoseTurn
          { tp with pokerInHand := sortHand (tp.pokerInHand ++ g.tablePoker.map some) }
        tablePoker := []
        lastShotPlayer := some g.whoseTurn }
    else g

/-- One JS `pokers.pop()`: the last element (or `undefined`) and the rest. -/
def jsPop (l : List Nat) : Option Nat × List Nat := (l.getLast?, l.dropLast)

/-- Performs `n` successive JS `pop()` calls, in call order. -/
def popN : Nat → List Nat → List (Option Nat) × List Nat
  | 0, l => ([], l)
  | n + 1, l =>
    let v := jsPop l
    let r := popN n v.2
    (v.1 :: r.1, r.2)

/-- Embeds `Game.dealPoker` (game.js lines 352-373): seventeen loop iterations
each push a face-down placeholder (id 55) to both peer hands and one
`pokers.pop()` result to the local hand. No size check is performed: a
short list pads the local hand with `undefined` (`none`) entries. -/
def dealPoker (g : Game) (pokers : List Nat) : Game :=
  { g with
    players :=
      { p0 := { g.players.p0 with
          pokerInHand := g.players.p0.pokerInHand ++ (popN 17 pokers).1 }
        p1 := { g.players.p1 with
          pokerInHand := g.players.p1.pokerInHand ++ List.replicate 17 (some 55) }
        p2 := { g.players.p2 with
          pokerInHand := g.players.p2.pokerInHand ++ List.replicate 17 (some 55) } } }

/-- The JS loop of the `RSP_JOIN_ROOM` case: first index of the local uid
in the server-provided player list. -/
def findLocalIdx (uid0 : Nat) : List (Nat × String) → Option Nat
  | [] => none
  | q :: rest =>
    if q.1 = uid0 then some 0
    else (findLocalIdx uid0 rest).map (· + 1)

/-- The seat-assignment loop of the `RSP_JOIN_ROOM` case (game.js lines
176-184): find the local uid in the server player list and assign the
identities at offsets `(i+1) % 3` and `(i+2) % 3` to seats 1 and 2;
seat 0 is never written. A rotation index outside the list makes the JS
code read `.uid` of `undefined` and throw: `none`. -/
def joinSeats (g : Game) (syncInfo : List (Nat × String)) : Option Game :=
  match findLocalIdx g.players.p0.uid syncInfo with
  | none => some g
  | some i =>
    match syncInfo.get? ((i + 1) % 3), syncInfo.get? ((i + 2) % 3) with
    | some a, some b =>
      some { g with
        players :=
          { p0 := g.players.p0
            p1 := updateInfo g.players.p1 a.1 a.2
            p2 := updateInfo g.players.p2 b.1 b.2 } }
    | _, _ => none

/-- Embeds the `RSP_JOIN_ROOM` case of `Game.onmessage` (game.js lines 173-197): the
seat assignment, then the mirror of a 3-card `bottom_cards` field of the
room payload into `tablePoker` (resume case). -/
def rspJoinRoom (g : Game) (syncInfo : List (Nat × String))
    (bottomCards : Option (List Nat)) : Option Game :=
  match joinSeats g syncInfo with
  | none => none
  | some g2 =>
    match bottomCards with
    | some bc => if bc.length = 3 then some { g2 with tablePoker := bc } else some g2
    | none => some g2

/-- Modelled from the spec: `createPlay` (`player.mjs`, absent from src)
constructs a fresh player object for a seat, with no identity yet —
`Game.create` assigns the local identity afterwards via `updateInfo`,
so the constructed identity is a placeholder. -/
def createPlay (_seat : Nat) : PlayerSt :=
  { uid := 0, name := "", pokerInHand := [], isLandlord := false }

/-- Embeds `Game.restart` (game.js lines 321-338): replace the players array
with three freshly created players, clear the table and the last-shot
reference, and reset the turn to seat 0. The room multiplier (observer
state) is not touched. -/
def restart (g : Game) : Game :=
  { players := { p0 := createPlay 0, p1 := createPlay 1, p2 := createPlay 2 }
    tablePoker := []
    lastShotPlayer := none
    whoseTurn := 0
    multiple := g.multiple }

/-- Embeds `Game.isLastShotPlayer` (game.js lines 552-560): object-identity
comparison `players[whoseTurn] === lastShotPlayer`, false when either
side is `undefined`/`null`. -/
def isLastShotPlayer (g : Game) : Bool :=
  match Players.getI g.players g.whoseTurn, g.lastShotPlayer with
  | some _, some s => s == g.whoseTurn
  | _, _ => false

/-! ### The `Observer` class (game.js lines 5-61) -/

/-- A stored observer value: a plain value or a one-level JS object with
named fields (`observer.state.room` is such an object). -/
inductive JVal where
  | leaf : Nat → JVal
  | obj : List (String × JVal) → JVal

/-- JS object property read. -/
def assocGet {α : Type} (m : List (String × α)) (k : String) : Option α :=
  match m with
  | [] => none
  | q :: rest => if q.1 = k then some q.2 else assocGet rest k

/-- JS object property write: overwrite in place, or append a new key. -/
def assocSet {α : Type} (m : List (String × α)) (k : String) (v : α) :
    List (String × α) :=
  match m with
  | [] => [(k, v)]
  | q :: rest => if q.1 = k then (k, v) :: rest else q :: assocSet rest k v

/-- Implements the JS split on a dot over the character list of the key. -/
def splitDotsAux : List Char → List Char → List (List Char)
  | [], acc => [acc.reverse]
  | c :: rest, acc =>
    if c = '.' then acc.reverse :: splitDotsAux rest []
    else splitDotsAux rest (c :: acc)

/-- Implements the JS expression that splits the key on dots. -/
def splitDots (cs : List Char) : List (List Char) := splitDotsAux cs []

/-- Rebuild a string from split characters. -/
def chStr (cs : List Char) : String := String.mk cs

/-- The observer: the `state` object and the `subscribers` map. A
callback is an opaque id; `none` models a falsy callback, which the
notification loop skips (`if (cb) cb(newVal)`). -/
structure Observer where
  state : List (String × JVal)
  subscribers : List (String × List (Option Nat))

/-- The callback ids `Observer.set` invokes for a notification key: the
truthy callbacks registered under exactly that key. -/
def invokedOf (subs : List (String × List (Option Nat))) (k : String) : List Nat :=
  match assocGet subs k with
  | some cbs => cbs.filterMap id
  | none => []

/-- Embeds `Observer.set` (game.js lines 16-36): a `'countdown'` key returns at
once; otherwise the key is split on `'.'` — one part stores under the
full key, two or more parts store into the named field of the object
held at the head key (a missing or non-object head makes the strict-mode
JS assignment throw: `none`) — and the callbacks registered under the
notification key (the head part for dotted keys) are invoked. Returns
the new observer and the invoked callback ids. -/
def observerSet (o : Observer) (key : String) (v : JVal) :
    Option (Observer × List Nat) :=
  if key = "countdown" then some (o, [])
  else
    match splitDots key.toList with
    | [_] =>
      some ({ o with state := assocSet o.state key v }, invokedOf o.subscribers key)
    | k0 :: k1 :: _ =>
      match assocGet o.state (chStr k0) with
      | some (JVal.obj m) =>
        some ({ o with
                 state := assocSet o.state (chStr k0) (JVal.obj (assocSet m (chStr k1) v)) },
              invokedOf o.subscribers (chStr k0))
      | _ => none
    | [] => some (o, [])

/-- Embeds `Observer.subscribe` (game.js lines 38-50): a `'countdown'` key
registers nothing; otherwise the callback is appended to the key's
list (created if absent). -/
def observerSubscribe (o : Observer) (key : String) (cb : Option Nat) : Observer :=
  if key = "countdown" then o
  else
    match assocGet o.subscribers key with
    | some cbs => { o with subscribers := assocSet o.subscribers key (cbs ++ [cb]) }
    | none => { o with subscribers := assocSet o.subscribers key [cb] }

/-- An observer operation: a `set` or a `subscribe` call. -/
inductive ObsOp where
  | setOp : String → JVal → ObsOp
  | subOp : String → Option Nat → ObsOp

/-- Run a sequence of observer operations, accumulating every invoked
callback id (a crashing `set` aborts the run). -/
def runOps : Observer → List ObsOp → Option (Observer × List Nat)
  | o, [] => some (o, [])
  | o, ObsOp.setOp k v :: rest =>
    match observerSet o k v with
    | none => none
    | some (o1, calls) =>
      match runOps o1 rest with
      | none => none
      | some (o2, more) => some (o2, calls ++ more)
  | o, ObsOp.subOp k cb :: rest => runOps (observerSubscribe o k cb) rest

/-! ### The authoritative card distribution

The conservation claim is about the full 54-card deal, which the
authoritative Python server performs; only the local 17-card mirror
(`Game.dealPoker`) is part of the client sources. The distribution is
therefore modelled from the spec as a transition system over multisets. -/

/-- The 54 card ids of one deck, as the client numbers them (1..54;
55 is the face-down placeholder sprite, not a deck card). -/
def deckList : List Nat := (List.range 54).map (· + 1)

/-- The deck as a multiset. -/
def deck : Multiset Nat := (deckList : Multiset Nat)

/-- Modelled from the spec: the authoritative session card state —
three hands, the bottom cards, and the cards already played. -/
structure AuthState where
  hand0 : Multiset Nat
  hand1 : Multiset Nat
  hand2 : Multiset Nat
  bottom : Multiset Nat
  played : Multiset Nat
deriving DecidableEq

/-- The multiset union of everything the session holds. -/
def AuthState.total (st : AuthState) : Multiset Nat :=
  st.hand0 + st.hand1 + st.hand2 + st.bottom + st.played

/-- The hand of a seat (0, 1 or 2). -/
def AuthState.hand (st : AuthState) (s : Nat) : Multiset Nat :=
  if s = 0 then st.hand0 else if s = 1 then st.hand1 else st.hand2

/-- Modelled from the spec: the deal splits a shuffled deck into three
17-card hands and 3 bottom cards, with nothing played yet. -/
def dealSt (l : List Nat) : AuthState :=
  { hand0 := ((l.take 17 : List Nat) : Multiset Nat)
    hand1 := (((l.drop 17).take 17 : List Nat) : Multiset Nat)
    hand2 := (((l.drop 34).take 17 : List Nat) : Multiset Nat)
    bottom := ((l.drop 51 : List Nat) : Multiset Nat)
    played := 0 }

/-- Modelled from the spec: an accepted play moves the played cards from
the acting hand to the played pile. -/
def playSt (st : AuthState) (s : Nat) (cards : Multiset Nat) : AuthState :=
  { st with
    hand0 := if s = 0 then st.hand0 - cards else st.hand0
    hand1 := if s = 1 then st.hand1 - cards else st.hand1
    hand2 := if s ≠ 0 ∧ s ≠ 1 then st.hand2 - cards else st.hand2
    played := st.played + cards }

/-- Modelled from the spec: the landlord award moves the bottom cards
into the landlord's hand and clears the bottom store. -/
def awardSt (st : AuthState) (s : Nat) : AuthState :=
  { st with
    hand0 := if s = 0 then st.hand0 + st.bottom else st.hand0
    hand1 := if s = 1 then st.hand1 + st.bottom else st.hand1
    hand2 := if s ≠ 0 ∧ s ≠ 1 then st.hand2 + st.bottom else st.hand2
    bottom := 0 }

/-- Modelled from the spec: the reachable session card states — a deal
of a permutation of the deck, followed by accepted plays (of cards the
acting hand holds) and the landlord award. -/
inductive Reach : AuthState → Prop
  | deal (l : List Nat) (hl : (l : Multiset Nat) = deck) : Reach (dealSt l)
  | play (st : AuthState) (s : Nat) (cards : Multiset Nat)
      (hc : cards ≤ st.hand s) (h : Reach st) : Reach (playSt st s cards)
  | award (st : AuthState) (s : Nat) (h : Reach st) : Reach (awardSt st s)

/-! ### Helper lemmas -/

lemma getI_some (ps : Players) (w : Int) (hw : 0 ≤ w ∧ w < 3) :
    ∃ tp, Players.getI ps w = some tp := by
  have h3 : w = 0 ∨ w = 1 ∨ w = 2 := by omega
  rcases h3 with h | h | h <;> subst h <;> simp [Players.getI]

lemma getI_setI_same (ps : Players) (w : Int) (p : PlayerSt) (hw : 0 ≤ w ∧ w < 3) :
    Players.getI (Players.setI ps w p) w = some p := by
  have h3 : w = 0 ∨ w = 1 ∨ w = 2 := by omega
  rcases h3 with h | h | h <;> subst h <;> simp [Players.getI, Players.setI]

lemma take_drop_total (l : List Nat) :
    ((l.take 17 ++ (l.drop 17).take 17) ++ (l.drop 34).take 17) ++ l.drop 51 = l := by
  have h51 : (l.drop 34).drop 17 = l.drop 51 := by simp [List.drop_drop]
  have h34 : (l.drop 17).drop 17 = l.drop 34 := by simp [List.drop_drop]
  calc ((l.take 17 ++ (l.drop 17).take 17) ++ (l.drop 34).take 17) ++ l.drop 51
      = l.take 17 ++ ((l.drop 17).take 17 ++ ((l.drop 34).take 17 ++ (l.drop 34).drop 17)) := by
        rw [h51]; simp [List.append_assoc]
    _ = l.take 17 ++ ((l.drop 17).take 17 ++ (l.drop 17).drop 17) := by
        rw [List.take_append_drop, h34]
    _ = l.take 17 ++ l.drop 17 := by rw [List.take_append_drop]
    _ = l := List.take_append_drop 17 l

lemma total_dealSt (l : List Nat) : (dealSt l).total = (l : Multiset Nat) := by
  simp only [dealSt, AuthState.total, add_zero]
  simp only [Multiset.coe_add]
  rw [take_drop_total]

lemma total_playSt (st : AuthState) (s : Nat) (cards : Multiset Nat)
    (hc : cards ≤ st.hand s) : (playSt st s cards).total = st.total := by
  by_cases h0 : s = 0
  · subst h0
    have hc' : cards ≤ st.hand0 := by simpa [AuthState.hand] using hc
    have hcc : st.hand0 - cards + cards = st.hand0 := tsub_add_cancel_of_le hc'
    simp only [playSt, AuthState.total, if_pos rfl]
    have : ¬((0 : Nat) ≠ 0 ∧ (0 : Nat) ≠ 1) := by omega
    simp only [if_neg (by omega : ¬(0 : Nat) = 1), if_neg this]
    calc st.hand0 - cards + st.hand1 + st.hand2 + st.bottom + (st.played + cards)
        = (st.hand0 - cards + cards) + st.hand1 + st.hand2 + st.bottom + st.played := by
          generalize st.hand0 - cards = x
          abel
      _ = st.hand0 + st.hand1 + st.hand2 + st.bottom + st.played := by rw [hcc]
  by_cases h1 : s = 1
  · subst h1
    have hc' : cards ≤ st.hand1 := by simpa [AuthState.hand] using hc
    have hcc : st.hand1 - cards + cards = st.hand1 := tsub_add_cancel_of_le hc'
    have hno : ¬((1 : Nat) ≠ 0 ∧ (1 : Nat) ≠ 1) := by omega
    simp only [playSt, AuthState.total, if_neg (by omega : ¬(1 : Nat) = 0), if_pos rfl,
      if_neg hno]
    calc st.hand0 + (st.hand1 - cards) + st.hand2 + st.bottom + (st.played + cards)
        = st.hand0 + (st.hand1 - cards + cards) + st.hand2 + st.bottom + st.played := by
          generalize st.hand1 - cards = x
          abel
      _ = st.hand0 + st.hand1 + st.hand2 + st.bottom + st.played := by rw [hcc]
  · have hc' : cards ≤ st.hand2 := by simpa [AuthState.hand, h0, h1] using hc
    have hcc : st.hand2 - cards + cards = st.hand2 := tsub_add_cancel_of_le hc'
    simp only [playSt, AuthState.total, if_neg h0, if_neg h1,
      if_pos (And.intro h0 h1)]
    calc st.hand0 + st.hand1 + (st.hand2 - cards) + st.bottom + (st.played + cards)
        = st.hand0 + st.hand1 + (st.hand2 - cards + cards) + st.bottom + st.played := by
          generalize st.hand2 - cards = x
          abel
      _ = st.hand0 + st.hand1 + st.hand2 + st.bottom + st.played := by rw [hcc]

lemma total_awardSt (st : AuthState) (s : Nat) : (awardSt st s).total = st.total := by
  by_cases h0 : s = 0
  · subst h0
    have hno : ¬((0 : Nat) ≠ 0 ∧ (0 : Nat) ≠ 1) := by omega
    simp only [awardSt, AuthState.total, if_pos rfl, if_neg (by omega : ¬(0 : Nat) = 1),
      if_neg hno]
    abel
  by_cases h1 : s = 1
  · subst h1
    have hno : ¬((1 : Nat) ≠ 0 ∧ (1 : Nat) ≠ 1) := by omega
    simp only [awardSt, AuthState.total, if_neg (by omega : ¬(1 : Nat) = 0), if_pos rfl,
      if_neg hno]
    abel
  · simp only [awardSt, AuthState.total, if_neg h0, if_neg h1, if_pos (And.intro h0 h1)]
    abel

lemma reach_total (st : AuthState) (h : Reach st) : st.total = deck := by
  induction h with
  | deal l hl => rw [total_dealSt, hl]
  | play st s cards hc h ih => rw [total_playSt st s cards hc, ih]
  | award st s h ih => rw [total_awardSt, ih]

lemma deckList_nodup : deckList.Nodup := by
  unfold deckList
  exact List.Nodup.map (fun a b hab => by omega) (List.nodup_range 54)

/-- C1: in every reachable session state, each CardId of the single
54-card deck appears exactly once across the three hands, the bottom
cards, and the cards already played; no CardId lies in two different
seats' hands at once. -/
theorem c1_conservation (st : AuthState) (h : Reach st) :
    (∀ c ∈ deck, st.total.count c = 1) ∧
    (∀ c : Nat, ∀ i j : Nat, i < 3 → j < 3 → i ≠ j →
      ¬(c ∈ st.hand i ∧ c ∈ st.hand j)) := by
  have htot := reach_total st h
  have hcount : ∀ c : Nat, st.total.count c = deckList.count c := by
    intro c
    rw [htot]
    exact Multiset.coe_count c deckList
  constructor
  · intro c hc
    rw [hcount]
    have hc' : c ∈ deckList := by simpa [deck] using hc
    exact List.count_eq_one_of_mem deckList_nodup hc'
  · rintro c i j hi hj hij ⟨hci, hcj⟩
    have hle1 : st.total.count c ≤ 1 := by
      rw [hcount]
      exact List.nodup_iff_count_le_one.mp deckList_nodup c
    have hsum : st.total.count c =
        st.hand0.count c + st.hand1.count c + st.hand2.count c +
          st.bottom.count c + st.played.count c := by
      simp [AuthState.total, Multiset.count_add]
    interval_cases i <;> interval_cases j <;>
      first
      | exact hij rfl
      | (simp [AuthState.hand] at hci hcj
         have c1 := Multiset.count_pos.mpr hci
         have c2 := Multiset.count_pos.mpr hcj
         omega)

/-- Witness for C1: the conservation property holds at the state dealt
from the identity ordering of the deck. -/
theorem c1_conservation_witness :
    (∀ c ∈ deck, (dealSt deckList).total.count c = 1) ∧
    (∀ c : Nat, ∀ i j : Nat, i < 3 → j < 3 → i ≠ j →
      ¬(c ∈ (dealSt deckList).hand i ∧ c ∈ (dealSt deckList).hand j)) :=
  c1_conservation (dealSt deckList) (Reach.deal deckList rfl)

/-! ### Play events -/

lemma handleShotPoker_pass (g : Game) (uid : Nat) (w : Int) (tp : PlayerSt)
    (hs : uidToSeat g uid = w) (_hw : 0 ≤ w ∧ w < 3)
    (htp : Players.getI g.players w = some tp) :
    handleShotPoker g uid [] =
      if 0 < tp.pokerInHand.length then some { g with whoseTurn := (w + 1) % 3 }
      else some { g with whoseTurn := w } := by
  unfold handleShotPoker
  rw [hs, htp]
  simp only [List.isEmpty_nil, if_true]
  rw [htp]

lemma handleShotPoker_shot (g : Game) (uid : Nat) (pokers : List Nat) (w : Int)
    (tp : PlayerSt) (hp : pokers ≠ [])
    (hs : uidToSeat g uid = w) (hw : 0 ≤ w ∧ w < 3)
    (htp : Players.getI g.players w = some tp) :
    handleShotPoker g uid pokers =
      (let hand1 := (sortPokers pokers).foldl removeAPoker tp.pokerInHand
       let g1 : Game :=
         { g with
           whoseTurn := w
           players := Players.setI g.players w { tp with pokerInHand := hand1 }
           tablePoker := sortPokers pokers
           lastShotPlayer := some w }
       if 0 < hand1.length then some { g1 with whoseTurn := (w + 1) % 3 } else some g1) := by
  unfold handleShotPoker
  rw [hs, htp]
  have hpe : pokers.isEmpty = false := by
    cases pokers with
    | nil => exact absurd rfl hp
    | cons a l => rfl
  simp only [hpe, Bool.false_eq_true, if_false]
  rw [getI_setI_same g.players w _ hw]

lemma handleShotPoker_turn_irrel (g : Game) (t : Int) (uid : Nat) (pokers : List Nat) :
    handleShotPoker { g with whoseTurn := t } uid pokers = handleShotPoker g uid pokers := rfl

/-- C2: an accepted play adopts the acting seat; if the played cards
leave the acting hand non-empty the turn advances to `(s+1) % 3` and the
phase is unchanged, while an emptied hand leaves the turn on the acting
seat and moves the match to round-over with that seat as winner. -/
theorem c2_turn_advance (g : Game) (ph : Phase) (uid : Nat) (pokers : List Nat) (w : Int)
    (hs : uidToSeat g uid = w) (hw : 0 ≤ w ∧ w < 3) :
    ∃ g1 ph1 tp1, playStep g ph uid pokers = some (g1, ph1) ∧
      Players.getI g1.players w = some tp1 ∧
      (tp1.pokerInHand ≠ [] → g1.whoseTurn = (w + 1) % 3 ∧ ph1 = ph) ∧
      (tp1.pokerInHand = [] → g1.whoseTurn = w ∧ ph1 = Phase.roundOver w) := by
  obtain ⟨tp, htp⟩ := getI_some g.players w hw
  by_cases hp : pokers = []
  · subst hp
    have hh := handleShotPoker_pass g uid w tp hs hw htp
    by_cases hn : 0 < tp.pokerInHand.length
    · have hne : tp.pokerInHand ≠ [] := by
        intro hcon
        rw [hcon] at hn
        exact absurd hn (by simp)
      refine ⟨{ g with whoseTurn := (w + 1) % 3 }, ph, tp, ?_, htp, ?_, ?_⟩
      · unfold playStep
        rw [hh, if_pos hn, hs]
        dsimp only
        rw [htp]
        dsimp only
        rw [if_neg hne]
      · intro _
        exact ⟨rfl, rfl⟩
      · intro hcon
        exact absurd hcon hne
    · have hnil : tp.pokerInHand = [] := by
        cases hht : tp.pokerInHand with
        | nil => rfl
        | cons a l => rw [hht] at hn; exact absurd (by simp) hn
      refine ⟨{ g with whoseTurn := w }, Phase.roundOver w, tp, ?_, htp, ?_, ?_⟩
      · unfold playStep
        rw [hh, if_neg hn, hs]
        dsimp only
        rw [htp]
        dsimp only
        rw [if_pos hnil]
      · intro hcon
        exact absurd hnil hcon
      · intro _
        exact ⟨rfl, rfl⟩
  · have hh := handleShotPoker_shot g uid pokers w tp hp hs hw htp
    simp only at hh
    set hand1 := (sortPokers pokers).foldl removeAPoker tp.pokerInHand with hh1
    set tpNew : PlayerSt := { tp with pokerInHand := hand1 } with htpNew
    set gMid : Game :=
      { g with
        whoseTurn := w
        players := Players.setI g.players w tpNew
        tablePoker := sortPokers pokers
        lastShotPlayer := some w } with hgMid
    have hgetMid : Players.getI gMid.players w = some tpNew :=
      getI_setI_same g.players w tpNew hw
    have hhandNew : tpNew.pokerInHand = hand1 := rfl
    by_cases hn : 0 < hand1.length
    · have hne : tpNew.pokerInHand ≠ [] := by
        rw [hhandNew]
        intro hcon
        rw [hcon] at hn
        exact absurd hn (by simp)
      refine ⟨{ gMid with whoseTurn := (w + 1) % 3 }, ph, tpNew, ?_, hgetMid, ?_, ?_⟩
      · unfold playStep
        rw [hh, if_pos hn, hs]
        dsimp only
        rw [hgetMid]
        dsimp only
        rw [if_neg hne]
      · intro _
        exact ⟨rfl, rfl⟩
      · intro hcon
        exact absurd hcon hne
    · have hnil : hand1 = [] := by
        cases hht : hand1 with
        | nil => rfl
        | cons a l => rw [hht] at hn; exact absurd (by simp) hn
      have hnil' : tpNew.pokerInHand = [] := by rw [hhandNew, hnil]
      refine ⟨gMid, Phase.roundOver w, tpNew, ?_, hgetMid, ?_, ?_⟩
      · unfold playStep
        rw [hh, if_neg hn, hs]
        dsimp only
        rw [hgetMid]
        dsimp only
        rw [if_pos hnil']
      · intro hcon
        exact absurd hnil' hcon
      · intro _
        exact ⟨rfl, rfl⟩

/-- Witness for C2: a concrete accepted play by seat 1 that leaves two
cards in hand advances the turn to seat 2 and keeps the match playing. -/
theorem c2_turn_advance_witness :
    ∃ g1 ph1 tp1,
      playStep
        { players :=
            { p0 := { uid := 10, name := "", pokerInHand := [some 1], isLandlord := false }
              p1 := { uid := 11, name := "", pokerInHand := [some 2, some 3, some 4], isLandlord := true }
              p2 := { uid := 12, name := "", pokerInHand := [some 5], isLandlord := false } }
          tablePoker := []
          lastShotPlayer := none
          whoseTurn := 1
          multiple := 1 } Phase.playing 11 [3] = some (g1, ph1) ∧
      Players.getI g1.players 1 = some tp1 ∧
      (tp1.pokerInHand ≠ [] → g1.whoseTurn = (1 + 1) % 3 ∧ ph1 = Phase.playing) ∧
      (tp1.pokerInHand = [] → g1.whoseTurn = 1 ∧ ph1 = Phase.roundOver 1) :=
  c2_turn_advance _ Phase.playing 11 [3] 1 (by decide) (by decide)

/-- A concrete mid-play state used for claim C3: the turn is on seat 0
and every hand is non-empty. -/
def cgC3 : Game :=
  { players :=
      { p0 := { uid := 10, name := "", pokerInHand := [some 1], isLandlord := false }
        p1 := { uid := 11, name := "", pokerInHand := [some 2], isLandlord := false }
        p2 := { uid := 12, name := "", pokerInHand := [some 3], isLandlord := true } }
    tablePoker := []
    lastShotPlayer := none
    whoseTurn := 0
    multiple := 1 }

/-- C3 counterexample: a play event by seat 1 while `whoseTurn = 0` is
not rejected — the handler adopts seat 1 and advances the turn to 2, so
the session state changes and no resynchronization happens. -/
theorem c3_counterexample :
    cgC3.whoseTurn = 0 ∧ uidToSeat cgC3 11 = 1 ∧
    Option.map Game.whoseTurn (handleShotPoker cgC3 11 []) = some 2 ∧
    handleShotPoker cgC3 11 [] ≠ some cgC3 := by decide

/-- C3 amended: an inbound play event whose seat differs from the
current `whoseTurn` is processed, not rejected: the engine adopts the
event's seat as the acting turn (leaving `whoseTurn` on that seat or its
successor), and the prior value of `whoseTurn` has no influence on the
result; no resynchronization request exists in the handler. -/
theorem c3_amended (g : Game) (uid : Nat) (pokers : List Nat) (w : Int)
    (hs : uidToSeat g uid = w) (hw : 0 ≤ w ∧ w < 3) (_hne : w ≠ g.whoseTurn) :
    ∃ g1, handleShotPoker g uid pokers = some g1 ∧
      (g1.whoseTurn = w ∨ g1.whoseTurn = (w + 1) % 3) ∧
      ∀ t, handleShotPoker { g with whoseTurn := t } uid pokers = some g1 := by
  obtain ⟨tp, htp⟩ := getI_some g.players w hw
  by_cases hp : pokers = []
  · subst hp
    have hh := handleShotPoker_pass g uid w tp hs hw htp
    by_cases hn : 0 < tp.pokerInHand.length
    · refine ⟨{ g with whoseTurn := (w + 1) % 3 }, ?_, Or.inr rfl, ?_⟩
      · rw [hh, if_pos hn]
      · intro t
        rw [handleShotPoker_turn_irrel, hh, if_pos hn]
    · refine ⟨{ g with whoseTurn := w }, ?_, Or.inl rfl, ?_⟩
      · rw [hh, if_neg hn]
      · intro t
        rw [handleShotPoker_turn_irrel, hh, if_neg hn]
  · have hh := handleShotPoker_shot g uid pokers w tp hp hs hw htp
    simp only at hh
    set hand1 := (sortPokers pokers).foldl removeAPoker tp.pokerInHand with hh1
    set gMid : Game :=
      { g with
        whoseTurn := w
        players := Players.setI g.players w { tp with pokerInHand := hand1 }
        tablePoker := sortPokers pokers
        lastShotPlayer := some w } with hgMid
    by_cases hn : 0 < hand1.length
    · refine ⟨{ gMid with whoseTurn := (w + 1) % 3 }, ?_, ?_, ?_⟩
      · rw [hh, if_pos hn]
      · right
        rfl
      · intro t
        rw [handleShotPoker_turn_irrel, hh, if_pos hn]
    · refine ⟨gMid, ?_, Or.inl rfl, ?_⟩
      · rw [hh, if_neg hn]
      · intro t
        rw [handleShotPoker_turn_irrel, hh, if_neg hn]

/-- Witness for the amended C3: the out-of-turn pass of the
counterexample is processed with seat 1 adopted, whatever the prior
turn value was. -/
theorem c3_amended_witness :
    ∃ g1, handleShotPoker cgC3 11 [] = some g1 ∧
      (g1.whoseTurn = 1 ∨ g1.whoseTurn = (1 + 1) % 3) ∧
      ∀ t, handleShotPoker { cgC3 with whoseTurn := t } 11 [] = some g1 :=
  c3_amended cgC3 11 [] 1 (by decide) (by decide) (by decide)

/-- C5: an accepted pass (empty card list) by a player still holding
cards changes nothing but the turn: the whole session state is equal to
the prior one with `whoseTurn` advanced to `(s+1) % 3` — in particular
the stored trick (`tablePoker` and `lastShotPlayer`) is untouched, so
the next player is still compared against the last non-empty play. -/
theorem c5_pass_frame (g : Game) (uid : Nat) (w : Int) (tp : PlayerSt)
    (hs : uidToSeat g uid = w) (hw : 0 ≤ w ∧ w < 3)
    (htp : Players.getI g.players w = some tp) (hne : tp.pokerInHand ≠ []) :
    handleShotPoker g uid [] = some { g with whoseTurn := (w + 1) % 3 } := by
  have hn : 0 < tp.pokerInHand.length := by
    cases hht : tp.pokerInHand with
    | nil => exact absurd hht hne
    | cons a l => simp
  rw [handleShotPoker_pass g uid w tp hs hw htp, if_pos hn]

/-- A concrete state for claim C5: a stored trick owned by seat 1,
turn on seat 2. -/
def cgC5 : Game :=
  { players :=
      { p0 := { uid := 20, name := "", pokerInHand := [some 9], isLandlord := false }
        p1 := { uid := 21, name := "", pokerInHand := [some 13, some 26], isLandlord := true }
        p2 := { uid := 22, name := "", pokerInHand := [some 40], isLandlord := false } }
    tablePoker := [13, 26]
    lastShotPlayer := some 1
    whoseTurn := 2
    multiple := 2 }

/-- Witness for C5: seat 2 passing on the stored trick advances the turn
to seat 0 and leaves everything else — the trick included — unchanged. -/
theorem c5_pass_frame_witness :
    handleShotPoker cgC5 22 [] = some { cgC5 with whoseTurn := (2 + 1) % 3 } :=
  c5_pass_frame cgC5 22 2
    { uid := 22, name := "", pokerInHand := [some 40], isLandlord := false }
    (by decide) (by decide) (by decide) (by decide)

/-! ### Bottom cards and the landlord -/

open List in
lemma insertSortedO_perm (c : Option Nat) (l : List (Option Nat)) :
    insertSortedO c l ~ c :: l := by
  induction l with
  | nil => rfl
  | cons x xs ih =>
    unfold insertSortedO
    by_cases h : c.getD 0 ≤ x.getD 0
    · rw [if_pos h]
    · rw [if_neg h]
      calc x :: insertSortedO c xs ~ x :: c :: xs := List.Perm.cons x ih
        _ ~ c :: x :: xs := List.Perm.swap c x xs

open List in
lemma sortHand_perm (l : List (Option Nat)) : sortHand l ~ l := by
  induction l with
  | nil => rfl
  | cons x xs ih =>
    calc sortHand (x :: xs) ~ x :: sortHand xs := insertSortedO_perm x (sortHand xs)
      _ ~ x :: xs := List.Perm.cons x ih

lemma sortHand_coe (l : List (Option Nat)) :
    ((sortHand l : List (Option Nat)) : Multiset (Option Nat)) =
      (l : Multiset (Option Nat)) :=
  Multiset.coe_eq_coe.mpr (sortHand_perm l)

lemma setElem_three (tp : List Nat) (p0 p1 p2 : Nat) (h : tp.length ≤ 3) :
    setElem (setElem (setElem tp 0 p0) 1 p1) 2 p2 = [p0, p1, p2] := by
  rcases tp with _ | ⟨a, _ | ⟨b, _ | ⟨c, rest⟩⟩⟩
  · rfl
  · rfl
  · rfl
  · cases rest with
    | nil => rfl
    | cons d ds =>
      exfalso
      simp only [List.length_cons] at h
      omega

/-- C4: a bid resolution naming a landlord sets `whoseTurn` to the
landlord's seat and writes the 3 bottom cards into the table store, and
the subsequent bottom-card deal merges exactly those 3 CardIds into the
landlord's hand (as a multiset — the hand is re-sorted) and clears the
bottom store. The prior table must hold at most 3 entries (as in every
pre-landlord state, where it is empty): the element-wise JS writes
preserve a longer table's tail, and the length-3 guard of the
bottom-card deal then early-returns instead. -/
theorem c4_landlord_bottom (g : Game) (uid : Nat) (landlord : Int) (pokers : List Nat)
    (m : Nat) (w l : Int) (lp : PlayerSt)
    (hu : uidToSeat g uid = w) (hwv : 0 ≤ w ∧ w < 3)
    (hl : landlord ≠ -1) (hls : uidToSeat g landlord.toNat = l) (hlv : 0 ≤ l ∧ l < 3)
    (hlp : Players.getI g.players l = some lp)
    (hp : pokers.length = 3) (htb : g.tablePoker.length ≤ 3) :
    ∃ g1, rspCallScore g uid landlord pokers m = some g1 ∧
      (dealLastThreePoker g1).whoseTurn = l ∧
      (dealLastThreePoker g1).tablePoker = [] ∧
      (dealLastThreePoker g1).lastShotPlayer = some l ∧
      ∃ lp2, Players.getI (dealLastThreePoker g1).players l = some lp2 ∧
        (lp2.pokerInHand : Multiset (Option Nat)) =
          (lp.pokerInHand : Multiset (Option Nat)) +
            ((pokers.map some : List (Option Nat)) : Multiset (Option Nat)) := by
  obtain ⟨tp0, htp0⟩ := getI_some g.players w hwv
  obtain ⟨p0, p1, p2, hpk⟩ := List.length_eq_three.mp hp
  subst hpk
  set tpL : PlayerSt := { lp with isLandlord := true } with htpL
  set g1 : Game :=
    { g with
      whoseTurn := l
      tablePoker := [p0, p1, p2]
      players := Players.setI g.players l tpL
      multiple := m } with hg1
  have hchain : setElem (setElem (setElem g.tablePoker 0 ([p0, p1, p2].getD 0 0))
      1 ([p0, p1, p2].getD 1 0)) 2 ([p0, p1, p2].getD 2 0) = [p0, p1, p2] :=
    setElem_three g.tablePoker p0 p1 p2 htb
  have hstep : rspCallScore g uid landlord [p0, p1, p2] m = some g1 := by
    unfold rspCallScore
    rw [hu, htp0]
    dsimp only
    rw [if_neg hl, hls, if_pos hp, hlp, hchain]
  have hget1 : Players.getI g1.players g1.whoseTurn = some tpL :=
    getI_setI_same g.players l tpL hlv
  set lp2 : PlayerSt :=
    { tpL with pokerInHand := sortHand (tpL.pokerInHand ++ [p0, p1, p2].map some) }
    with hlp2
  have hdeal : dealLastThreePoker g1 =
      { g1 with
        players := Players.setI g1.players g1.whoseTurn lp2
        tablePoker := []
        lastShotPlayer := some g1.whoseTurn } := by
    unfold dealLastThreePoker
    rw [hget1]
    dsimp only
    rw [if_pos (show g1.tablePoker.length = 3 from hp)]
  refine ⟨g1, hstep, ?_, ?_, ?_, lp2, ?_, ?_⟩
  · rw [hdeal]
  · rw [hdeal]
  · rw [hdeal]
  · rw [hdeal]
    exact getI_setI_same g1.players l lp2 hlv
  · have hhand : lp2.pokerInHand = sortHand (lp.pokerInHand ++ [p0, p1, p2].map some) :=
      rfl
    rw [hhand, sortHand_coe]
    exact (Multiset.coe_add lp.pokerInHand ([p0, p1, p2].map some)).symm

/-- A concrete pre-landlord state for claim C4. -/
def cgC4 : Game :=
  { players :=
      { p0 := { uid := 30, name := "", pokerInHand := [some 7], isLandlord := false }
        p1 := { uid := 31, name := "", pokerInHand := [some 8, some 9], isLandlord := false }
        p2 := { uid := 32, name := "", pokerInHand := [some 10], isLandlord := false } }
    tablePoker := []
    lastShotPlayer := none
    whoseTurn := 0
    multiple := 1 }

/-- Witness for C4: resolving the bid with landlord uid 31 (seat 1) and
bottom cards 52, 53, 54 puts the turn on seat 1 and grows that hand by
exactly those three cards, clearing the table. -/
theorem c4_landlord_bottom_witness :
    ∃ g1, rspCallScore cgC4 30 31 [52, 53, 54] 2 = some g1 ∧
      (dealLastThreePoker g1).whoseTurn = 1 ∧
      (dealLastThreePoker g1).tablePoker = [] ∧
      (dealLastThreePoker g1).lastShotPlayer = some 1 ∧
      ∃ lp2, Players.getI (dealLastThreePoker g1).players 1 = some lp2 ∧
        (lp2.pokerInHand : Multiset (Option Nat)) =
          (cgC4.players.p1.pokerInHand : Multiset (Option Nat)) +
            ((([52, 53, 54] : List Nat).map some : List (Option Nat)) :
              Multiset (Option Nat)) :=
  c4_landlord_bottom cgC4 30 31 [52, 53, 54] 2 0 1 cgC4.players.p1
    (by decide) (by decide) (by decide) (by decide) (by decide) (by decide) (by decide)
    (by decide)

/-! ### The deal -/

lemma popN_length (n : Nat) (l : List Nat) : (popN n l).1.length = n := by
  induction n generalizing l with
  | zero => rfl
  | succ k ih => simp [popN, ih]

/-- A concrete pre-deal state for claim C6: empty hands. -/
def cgC6 : Game :=
  { players :=
      { p0 := { uid := 1, name := "", pokerInHand := [], isLandlord := false }
        p1 := { uid := 2, name := "", pokerInHand := [], isLandlord := false }
        p2 := { uid := 3, name := "", pokerInHand := [], isLandlord := false } }
    tablePoker := []
    lastShotPlayer := none
    whoseTurn := 0
    multiple := 1 }

/-- C6 counterexample: a deal event carrying only 3 cards is not treated
as a protocol error — the handler silently fills the local hand with the
3 cards and 14 `undefined` entries. -/
theorem c6_counterexample :
    (dealPoker cgC6 [1, 2, 3]).players.p0.pokerInHand =
      [some 3, some 2, some 1] ++ List.replicate 14 none ∧
    (dealPoker cgC6 [1, 2, 3]).players.p0.pokerInHand.length = 17 ∧
    none ∈ (dealPoker cgC6 [1, 2, 3]).players.p0.pokerInHand := by decide

/-- C6 amended: the deal handler performs no size validation: whatever
list arrives, it appends exactly 17 entries to each hand — the local
hand receives the last 17 cards of the list in pop order, padded with
`undefined` when the list is shorter, and the peer hands receive 17
face-down placeholders each. -/
theorem c6_amended (g : Game) (pokers : List Nat) :
    (dealPoker g pokers).players.p0.pokerInHand =
      g.players.p0.pokerInHand ++ (popN 17 pokers).1 ∧
    (popN 17 pokers).1.length = 17 ∧
    (dealPoker g pokers).players.p1.pokerInHand =
      g.players.p1.pokerInHand ++ List.replicate 17 (some 55) ∧
    (dealPoker g pokers).players.p2.pokerInHand =
      g.players.p2.pokerInHand ++ List.replicate 17 (some 55) :=
  ⟨rfl, popN_length 17 pokers, rfl, rfl⟩

/-! ### Join and seat rotation -/

lemma joinSeats_spec (g : Game) (q0 q1 q2 : Nat × String) (i : Nat)
    (hfind : findLocalIdx g.players.p0.uid [q0, q1, q2] = some i) :
    joinSeats g [q0, q1, q2] =
      some { g with players :=
        { p0 := g.players.p0
          p1 := updateInfo g.players.p1 ([q0, q1, q2].getD ((i + 1) % 3) q0).1
            ([q0, q1, q2].getD ((i + 1) % 3) q0).2
          p2 := updateInfo g.players.p2 ([q0, q1, q2].getD ((i + 2) % 3) q0).1
            ([q0, q1, q2].getD ((i + 2) % 3) q0).2 } } := by
  by_cases h0 : q0.1 = g.players.p0.uid
  · have hi : i = 0 := by
      simp [findLocalIdx, h0] at hfind
      omega
    subst hi
    unfold joinSeats
    simp [findLocalIdx, h0]
  by_cases h1 : q1.1 = g.players.p0.uid
  · have hi : i = 1 := by
      simp [findLocalIdx, h0, h1] at hfind
      omega
    subst hi
    unfold joinSeats
    simp [findLocalIdx, h0, h1]
  by_cases h2 : q2.1 = g.players.p0.uid
  · have hi : i = 2 := by
      simp [findLocalIdx, h0, h1, h2] at hfind
      omega
    subst hi
    unfold joinSeats
    simp [findLocalIdx, h0, h1, h2]
  · exfalso
    simp [findLocalIdx, h0, h1, h2] at hfind

lemma rspJoinRoom_players (g : Game) (syncInfo : List (Nat × String))
    (bc : Option (List Nat)) (g2 : Game) (h : joinSeats g syncInfo = some g2) :
    ∃ g3, rspJoinRoom g syncInfo bc = some g3 ∧ g3.players = g2.players := by
  unfold rspJoinRoom
  rw [h]
  cases bc with
  | none => exact ⟨g2, rfl, rfl⟩
  | some l =>
    by_cases hl : l.length = 3
    · refine ⟨{ g2 with tablePoker := l }, ?_, rfl⟩
      dsimp only
      rw [if_pos hl]
    · refine ⟨g2, ?_, rfl⟩
      dsimp only
      rw [if_neg hl]

/-- C7: on join acceptance seat 0 keeps the local identity (the handler
never writes it), and when the local uid is first found at index `i` of
the 3-entry server player list, seat 1 receives the identity at index
`(i+1) % 3` and seat 2 the identity at index `(i+2) % 3`. -/
theorem c7_join_seats (g : Game) (bc : Option (List Nat)) (q0 q1 q2 : Nat × String)
    (i : Nat) (hfind : findLocalIdx g.players.p0.uid [q0, q1, q2] = some i) :
    ∃ g1, rspJoinRoom g [q0, q1, q2] bc = some g1 ∧
      g1.players.p0 = g.players.p0 ∧
      g1.players.p1 = updateInfo g.players.p1 ([q0, q1, q2].getD ((i + 1) % 3) q0).1
        ([q0, q1, q2].getD ((i + 1) % 3) q0).2 ∧
      g1.players.p2 = updateInfo g.players.p2 ([q0, q1, q2].getD ((i + 2) % 3) q0).1
        ([q0, q1, q2].getD ((i + 2) % 3) q0).2 := by
  have hj := joinSeats_spec g q0 q1 q2 i hfind
  obtain ⟨g3, hg3, hpl⟩ := rspJoinRoom_players g [q0, q1, q2] bc _ hj
  exact ⟨g3, hg3, by rw [hpl], by rw [hpl], by rw [hpl]⟩

/-- A concrete pre-join state for claim C7: the local player (seat 0)
has uid 6, which the server list carries at index 1. -/
def cgC7 : Game :=
  { players :=
      { p0 := { uid := 6, name := "me", pokerInHand := [], isLandlord := false }
        p1 := { uid := 0, name := "", pokerInHand := [], isLandlord := false }
        p2 := { uid := 0, name := "", pokerInHand := [], isLandlord := false } }
    tablePoker := []
    lastShotPlayer := none
    whoseTurn := 0
    multiple := 1 }

/-- Witness for C7: with the local uid at index 1 of the server list,
seat 1 receives the entry at index 2 and seat 2 the entry at index 0,
while seat 0 keeps the local identity. -/
theorem c7_join_seats_witness :
    ∃ g1, rspJoinRoom cgC7 [(5, "a"), (6, "b"), (7, "c")] none = some g1 ∧
      g1.players.p0 = cgC7.players.p0 ∧
      g1.players.p1 = updateInfo cgC7.players.p1
        ([(5, "a"), (6, "b"), (7, "c")].getD ((1 + 1) % 3) (5, "a")).1
        ([(5, "a"), (6, "b"), (7, "c")].getD ((1 + 1) % 3) (5, "a")).2 ∧
      g1.players.p2 = updateInfo cgC7.players.p2
        ([(5, "a"), (6, "b"), (7, "c")].getD ((1 + 2) % 3) (5, "a")).1
        ([(5, "a"), (6, "b"), (7, "c")].getD ((1 + 2) % 3) (5, "a")).2 :=
  c7_join_seats cgC7 none (5, "a") (6, "b") (7, "c") 1 (by decide)

/-! ### Bidding round-robin -/

/-- Iterated no-landlord bid resolutions: round `n` is resolved for the
uid `uids n` with the authoritative multiplier `ms n`. -/
def bidIter (g : Game) (uids ms : Nat → Nat) : Nat → Option Game
  | 0 => some g
  | n + 1 =>
    match bidIter g uids ms n with
    | none => none
    | some g1 => rspCallScore g1 (uids n) (-1) [] (ms n)

lemma rspCallScore_noLandlord (g : Game) (uid : Nat) (pokers : List Nat) (m : Nat)
    (w : Int) (hu : uidToSeat g uid = w) (hw : 0 ≤ w ∧ w < 3) :
    rspCallScore g uid (-1) pokers m =
      some { g with whoseTurn := (w + 1) % 3, multiple := m } := by
  obtain ⟨tp0, htp0⟩ := getI_some g.players w hw
  unfold rspCallScore
  rw [hu, htp0]
  dsimp only
  rw [if_pos rfl]

lemma uidToSeat_congr (g g1 : Game) (h : g1.players = g.players) (uid : Nat) :
    uidToSeat g1 uid = uidToSeat g uid := by
  unfold uidToSeat
  rw [h]

/-- C8: a bid resolution naming no landlord advances `whoseTurn` to
`(s+1) % 3` and changes nothing else except the authoritative
multiplier — the players (hands, landlord flags, identities) are
untouched, and since they are untouched, any number of further
no-landlord rounds is accepted: bidding is an unbounded round-robin
with no client-side cap. -/
theorem c8_bid_roundrobin (g : Game) (uid : Nat) (pokers : List Nat) (m : Nat)
    (w : Int) (uids ms : Nat → Nat)
    (hu : uidToSeat g uid = w) (hw : 0 ≤ w ∧ w < 3)
    (huids : ∀ n, 0 ≤ uidToSeat g (uids n) ∧ uidToSeat g (uids n) < 3) :
    rspCallScore g uid (-1) pokers m =
      some { g with whoseTurn := (w + 1) % 3, multiple := m } ∧
    ∀ n, ∃ g1, bidIter g uids ms n = some g1 ∧ g1.players = g.players := by
  refine ⟨rspCallScore_noLandlord g uid pokers m w hu hw, ?_⟩
  intro n
  induction n with
  | zero => exact ⟨g, rfl, rfl⟩
  | succ k ih =>
    obtain ⟨g1, hg1, hpl⟩ := ih
    have hseat := uidToSeat_congr g g1 hpl (uids k)
    have hw1 : 0 ≤ uidToSeat g1 (uids k) ∧ uidToSeat g1 (uids k) < 3 := by
      rw [hseat]
      exact huids k
    have hstep := rspCallScore_noLandlord g1 (uids k) [] (ms k)
      (uidToSeat g1 (uids k)) rfl hw1
    have hsucc : bidIter g uids ms (k + 1) =
        match bidIter g uids ms k with
        | none => none
        | some g2 => rspCallScore g2 (uids k) (-1) [] (ms k) := rfl
    refine ⟨{ g1 with whoseTurn := (uidToSeat g1 (uids k) + 1) % 3, multiple := ms k },
      ?_, hpl⟩
    rw [hsucc, hg1]
    dsimp only
    exact hstep

/-- A concrete bidding state for claim C8. -/
def cgC8 : Game :=
  { players :=
      { p0 := { uid := 40, name := "", pokerInHand := [some 1], isLandlord := false }
        p1 := { uid := 41, name := "", pokerInHand := [some 2], isLandlord := false }
        p2 := { uid := 42, name := "", pokerInHand := [some 3], isLandlord := false } }
    tablePoker := []
    lastShotPlayer := none
    whoseTurn := 1
    multiple := 1 }

/-- Witness for C8: a no-landlord bid by seat 1 advances the turn to
seat 2 and leaves the players untouched, and arbitrarily many further
no-landlord rounds (here driven by uid 41) are accepted. -/
theorem c8_bid_roundrobin_witness :
    rspCallScore cgC8 41 (-1) [] 4 =
      some { cgC8 with whoseTurn := (1 + 1) % 3, multiple := 4 } ∧
    ∀ n, ∃ g1, bidIter cgC8 (fun _ => 41) (fun _ => 4) n = some g1 ∧
      g1.players = cgC8.players :=
  c8_bid_roundrobin cgC8 41 [] 4 1 (fun _ => 41) (fun _ => 4)
    (by decide) (by decide)
    (fun _ => (by decide : 0 ≤ uidToSeat cgC8 41 ∧ uidToSeat cgC8 41 < 3))

/-! ### Restart -/

/-- A concrete end-of-round state for claim C9: named players with
known uids, a doubled multiplier, and leftovers on the table. -/
def cgC9 : Game :=
  { players :=
      { p0 := { uid := 7, name := "x", pokerInHand := [some 1], isLandlord := false }
        p1 := { uid := 8, name := "y", pokerInHand := [], isLandlord := true }
        p2 := { uid := 9, name := "z", pokerInHand := [some 2], isLandlord := false } }
    tablePoker := [11, 12]
    lastShotPlayer := some 1
    whoseTurn := 1
    multiple := 2 }

/-- C9 counterexample: restarting the concrete state neither resets the
multiplier to 1 nor preserves the player identities — the multiplier
stays 2 and every seat's uid and name revert to the fresh-player
placeholder. -/
theorem c9_counterexample :
    cgC9.multiple = 2 ∧ (restart cgC9).multiple ≠ 1 ∧
    cgC9.players.p1.uid = 8 ∧ (restart cgC9).players.p1.uid ≠ 8 ∧
    cgC9.players.p0.name = "x" ∧ (restart cgC9).players.p0.name ≠ "x" := by decide

/-- C9 amended: a restart replaces the three players with freshly
created placeholder players (discarding the previous identities), clears
the table cards and the last-shot reference, resets the turn to seat 0,
and leaves the room multiplier untouched; it is idempotent — a second,
duplicate restart leaves the state identical to a single application. -/
theorem c9_amended (g : Game) :
    restart g =
      { players := { p0 := createPlay 0, p1 := createPlay 1, p2 := createPlay 2 }
        tablePoker := []
        lastShotPlayer := none
        whoseTurn := 0
        multiple := g.multiple } ∧
    restart (restart g) = restart g :=
  ⟨rfl, rfl⟩

/-! ### Observer claims -/

lemma assocGet_assocSet_ne {α : Type} (m : List (String × α)) (k k1 : String) (v : α)
    (h : k1 ≠ k) : assocGet (assocSet m k v) k1 = assocGet m k1 := by
  induction m with
  | nil =>
    unfold assocSet assocGet
    rw [if_neg (fun hh => h hh.symm)]
    rfl
  | cons q rest ih =>
    by_cases hq : q.1 = k
    · unfold assocSet
      rw [if_pos hq]
      unfold assocGet
      rw [if_neg (fun hh => h hh.symm), if_neg (fun hh => h (hq ▸ hh.symm))]
    · unfold assocSet
      rw [if_neg hq]
      unfold assocGet
      by_cases hq1 : q.1 = k1
      · rw [if_pos hq1, if_pos hq1]
      · rw [if_neg hq1, if_neg hq1]
        exact ih

lemma observerSet_subscribers (o : Observer) (k : String) (v : JVal) (o1 : Observer)
    (calls : List Nat) (h : observerSet o k v = some (o1, calls)) :
    o1.subscribers = o.subscribers := by
  unfold observerSet at h
  by_cases hc : k = "countdown"
  · rw [if_pos hc] at h
    injection h with h2
    have h3 : o = o1 := congrArg Prod.fst h2
    rw [← h3]
  · rw [if_neg hc] at h
    cases hsplit : splitDots k.toList with
    | nil =>
      rw [hsplit] at h
      injection h with h2
      have h3 : o = o1 := congrArg Prod.fst h2
      rw [← h3]
    | cons k0 parts =>
      cases parts with
      | nil =>
        rw [hsplit] at h
        dsimp only at h
        injection h with h2
        have h3 : { o with state := assocSet o.state k v } = o1 :=
          congrArg Prod.fst h2
        rw [← h3]
      | cons k1 rest =>
        rw [hsplit] at h
        dsimp only at h
        cases hg : assocGet o.state (chStr k0) with
        | none =>
          rw [hg] at h
          exact absurd h (by simp)
        | some jv =>
          rw [hg] at h
          cases jv with
          | leaf n =>
            exact absurd h (by simp)
          | obj mm =>
            dsimp only at h
            injection h with h2
            have h3 : { o with
                state := assocSet o.state (chStr k0)
                  (JVal.obj (assocSet mm (chStr k1) v)) } = o1 :=
              congrArg Prod.fst h2
            rw [← h3]

lemma subscribe_countdown_none (o : Observer) (k : String) (cb : Option Nat)
    (h : assocGet o.subscribers "countdown" = none) :
    assocGet (observerSubscribe o k cb).subscribers "countdown" = none := by
  unfold observerSubscribe
  by_cases hc : k = "countdown"
  · rw [if_pos hc]
    exact h
  · rw [if_neg hc]
    have hne : "countdown" ≠ k := fun hh => hc hh.symm
    cases hg : assocGet o.subscribers k with
    | none =>
      dsimp only
      rw [assocGet_assocSet_ne o.subscribers k "countdown" _ hne]
      exact h
    | some cbs =>
      dsimp only
      rw [assocGet_assocSet_ne o.subscribers k "countdown" _ hne]
      exact h

lemma runOps_countdown_none (ops : List ObsOp) (o : Observer)
    (h : assocGet o.subscribers "countdown" = none) :
    ∀ o2 calls, runOps o ops = some (o2, calls) →
      assocGet o2.subscribers "countdown" = none := by
  induction ops generalizing o with
  | nil =>
    intro o2 calls hrun
    unfold runOps at hrun
    injection hrun with h2
    have h3 : o = o2 := congrArg Prod.fst h2
    rw [← h3]
    exact h
  | cons op rest ih =>
    intro o2 calls hrun
    cases op with
    | setOp k v =>
      unfold runOps at hrun
      cases hset : observerSet o k v with
      | none =>
        rw [hset] at hrun
        exact absurd hrun (by simp)
      | some r =>
        rw [hset] at hrun
        dsimp only at hrun
        cases hrest : runOps r.1 rest with
        | none =>
          rw [hrest] at hrun
          exact absurd hrun (by simp)
        | some r2 =>
          rw [hrest] at hrun
          dsimp only at hrun
          injection hrun with h2
          have hsub : r.1.subscribers = o.subscribers :=
            observerSet_subscribers o k v r.1 r.2 (by rw [← hset])
          have hnone : assocGet r.1.subscribers "countdown" = none := by
            rw [hsub]
            exact h
          have hres := ih r.1 hnone r2.1 r2.2 (by rw [hrest])
          have h3 : r2.1 = o2 := congrArg Prod.fst h2
          rw [← h3]
          exact hres
    | subOp k cb =>
      unfold runOps at hrun
      exact ih (observerSubscribe o k cb) (subscribe_countdown_none o k cb h)
        o2 calls hrun

/-- C10 amended: `set('countdown', v)` is a no-op returning no
invocations and `subscribe('countdown', cb)` registers nothing, and from
any observer with no `'countdown'` subscriber entry, no sequence of
operations ever creates one — so no `'countdown'` subscriber is ever
called. For any other dot-free key, `set` stores the value under that
key and invokes exactly the truthy callbacks registered under that key;
for a dotted key `'a.b'`, `set` stores the value into field `b` of the
object held at `'a'` and invokes the callbacks registered under `'a'` —
not those registered under the literal dotted key. -/
theorem c10_amended :
    (∀ (o : Observer) (v : JVal), observerSet o "countdown" v = some (o, [])) ∧
    (∀ (o : Observer) (cb : Option Nat), observerSubscribe o "countdown" cb = o) ∧
    (∀ (ops : List ObsOp) (o : Observer),
      assocGet o.subscribers "countdown" = none →
      ∀ o2 calls, runOps o ops = some (o2, calls) →
        assocGet o2.subscribers "countdown" = none) ∧
    (∀ (o : Observer) (key : String) (v : JVal),
      key ≠ "countdown" → splitDots key.toList = [key.toList] →
      observerSet o key v =
        some ({ o with state := assocSet o.state key v }, invokedOf o.subscribers key)) ∧
    (∀ (o : Observer) (key : String) (v : JVal) (k0 k1 : List Char)
      (rest : List (List Char)) (m : List (String × JVal)),
      key ≠ "countdown" → splitDots key.toList = k0 :: k1 :: rest →
      assocGet o.state (chStr k0) = some (JVal.obj m) →
      observerSet o key v =
        some ({ o with
                  state := assocSet o.state (chStr k0)
                    (JVal.obj (assocSet m (chStr k1) v)) },
              invokedOf o.subscribers (chStr k0))) := by
  refine ⟨?_, ?_, ?_, ?_, ?_⟩
  · intro o v
    unfold observerSet
    rw [if_pos rfl]
  · intro o cb
    unfold observerSubscribe
    rw [if_pos rfl]
  · intro ops o h o2 calls hrun
    exact runOps_countdown_none ops o h o2 calls hrun
  · intro o key v hk hsplit
    unfold observerSet
    rw [if_neg hk, hsplit]
  · intro o key v k0 k1 rest m hk hsplit hobj
    unfold observerSet
    rw [if_neg hk, hsplit]
    dsimp only
    rw [hobj]

/-- A concrete observer for the C10 witness: a truthy, a falsy and a
second truthy callback registered under the plain key `'x'`. -/
def cObW : Observer :=
  { state := [("ready", JVal.leaf 0)]
    subscribers := [("x", [some 3, none, some 4])] }

/-- Witness for the amended C10: setting the plain key `'x'` stores the
value under `'x'` and invokes exactly the truthy callbacks 3 and 4. -/
theorem c10_amended_witness :
    observerSet cObW "x" (JVal.leaf 5) =
      some ({ cObW with state := assocSet cObW.state "x" (JVal.leaf 5) },
        invokedOf cObW.subscribers "x") ∧
    invokedOf cObW.subscribers "x" = [3, 4] :=
  ⟨c10_amended.2.2.2.1 cObW "x" (JVal.leaf 5) (by decide) (by decide), by decide⟩

/-- A concrete observer for the C10 counterexample: a callback
registered under the literal dotted key `'a.b'`, and an object at the
top-level key `'a'`. -/
def cObC10 : Observer :=
  { state := [("a", JVal.obj [("b", JVal.leaf 0)])]
    subscribers := [("a.b", [some 7])] }

/-- C10 counterexample: callback 7 is registered under the key
`'a.b'`, yet `set('a.b', v)` invokes no callback at all (it notifies the
subscribers of `'a'`, of which there are none) — so `set` does not
invoke exactly the callbacks registered for its key. -/
theorem c10_counterexample :
    assocGet cObC10.subscribers "a.b" = some [some 7] ∧
    Option.map Prod.snd (observerSet cObC10 "a.b" (JVal.leaf 1)) = some [] := by
  constructor
  · decide
  · rfl

end DDZ
